import Mathlib

/-!
Verification of the settings store of `src/nas-config-gui.c` (nas-monitor).

The core of the program is a small configuration store: a flat record
(`Config`), a line-oriented loader (`load_config`), a fixed-layout writer
(`save_config`), and two in-memory device-list edits (the add / remove
button handlers).  We embed these shallowly:

* C strings become `List Char`; a text file becomes the `List Char` of its
  bytes; `fgets` chunking of a file whose lines (newline included) fit the
  1024-byte line buffer is modelled by `chunks`, which cuts the text after
  each newline character.
* C `int` becomes `Int`; `atoi` and the `%d` rendering of `fprintf` are
  modelled by `atoi` and `itoa` below.
* `strncpy(dest, src, MAX_LINE - 1)` into a zero-initialised 1024-byte
  buffer stores exactly the first `min (length src) 1023` characters,
  modelled by `List.take 1023`.
* The GTK widgets are glue and are not modelled; the state changes of the add and remove handlers are `addDevice` / `removeDevice`.
-/

set_option linter.unusedVariables false

namespace NasMonitor

/-- A settings record, mirroring the C `Config` struct (minus the
`config_path` field, which only names the file on disk).  `nas_count` is
represented implicitly as `nas_devices.length`. -/
structure Config where
  home_networks : List Char
  nas_devices : List (List Char)
  home_ac_interval : Int
  home_battery_interval : Int
  away_ac_interval : Int
  away_battery_interval : Int
  max_failed_attempts : Int
  min_battery_level : Int
  enable_notifications : Bool
deriving DecidableEq, Repr

/-- `set_defaults` (nas-config-gui.c lines 91-101). -/
def set_defaults : Config where
  home_networks := []
  nas_devices := []
  home_ac_interval := 15
  home_battery_interval := 60
  away_ac_interval := 180
  away_battery_interval := 600
  max_failed_attempts := 3
  min_battery_level := 10
  enable_notifications := true

/-- The whitespace set of the C `isspace` predicate, as used by `atoi`. -/
def isCSpace (c : Char) : Bool :=
  c == ' ' || c == '\t' || c == '\n' || c == '\x0b' || c == '\x0c' || c == '\r'

/-- The loop `while (*p == ' ' || *p == '\t') p++;` used on both key and
value at lines 140-141 of the source: drop leading spaces and tabs. -/
def trimLeadingWS : List Char → List Char
  | [] => []
  | c :: cs => if c == ' ' || c == '\t' then trimLeadingWS cs else c :: cs

/-- `strspn(line, " \t") == strlen(line)`: the line consists only of
spaces and tabs (true as well for the empty line, which the C code
catches separately via `line[0] == '\0'`). -/
def wsOnly (l : List Char) : Bool :=
  l.all (fun c => c == ' ' || c == '\t')

/-- `strchr(line, '=')` followed by splitting at that first `'='`
(lines 133-137): `none` when the line has no `'='`, otherwise the part
before the first `'='` and the part after it. -/
def splitAtEq : List Char → Option (List Char × List Char)
  | [] => none
  | c :: cs =>
    if c == '=' then some ([], cs)
    else
      match splitAtEq cs with
      | none => none
      | some (k, v) => some (c :: k, v)

/-- The digit-consuming loop of C `atoi`: accumulate leading decimal
digits, stopping at the first non-digit. -/
def atoiDigits : List Char → Int → Int
  | [], acc => acc
  | c :: cs, acc =>
    if c.isDigit then atoiDigits cs (10 * acc + ((c.toNat - 48 : Nat) : Int)) else acc

/-- C `atoi`: skip `isspace` whitespace, read an optional single sign,
then leading digits; yields 0 when there are none. -/
def atoi (s : List Char) : Int :=
  match s.dropWhile isCSpace with
  | [] => 0
  | c :: rest =>
    if c == '-' then - atoiDigits rest 0
    else if c == '+' then atoiDigits rest 0
    else atoiDigits (c :: rest) 0

/-- The decimal digit characters, for rendering integers. -/
def digitChar : Nat → Char
  | 0 => '0'
  | 1 => '1'
  | 2 => '2'
  | 3 => '3'
  | 4 => '4'
  | 5 => '5'
  | 6 => '6'
  | 7 => '7'
  | 8 => '8'
  | _ => '9'

/-- Fuel-driven digit extraction (most significant digit first once the
accumulator is reversed); `fuel ≥ n` makes the fuel irrelevant. -/
def natToDigitsAux : Nat → Nat → List Char → List Char
  | 0, _, acc => acc
  | _ + 1, 0, acc => acc
  | fuel + 1, n + 1, acc =>
    natToDigitsAux fuel ((n + 1) / 10) (digitChar ((n + 1) % 10) :: acc)

/-- Decimal rendering of a natural number, `"0"` for zero. -/
def natToDigits (n : Nat) : List Char :=
  if n = 0 then [ '0' ] else natToDigitsAux n n []

/-- The `%d` rendering of `fprintf` for a C `int` value. -/
def itoa (n : Int) : List Char :=
  if n < 0 then '-' :: natToDigits (-n).toNat else natToDigits n.toNat

/-- The key dispatch of `load_config` (lines 143-159): assign a trimmed
value to the field named by the trimmed key; unrecognized keys change
nothing.  String values go through the `strncpy` bound of 1023
characters; integer values through `atoi`; the boolean through
`strcmp(value, "true") == 0`. -/
def applyKV (c : Config) (key value : List Char) : Config :=
  if key = "home_networks".toList then { c with home_networks := value.take 1023 }
  else if key = "home_ac_interval".toList then { c with home_ac_interval := atoi value }
  else if key = "home_battery_interval".toList then { c with home_battery_interval := atoi value }
  else if key = "away_ac_interval".toList then { c with away_ac_interval := atoi value }
  else if key = "away_battery_interval".toList then { c with away_battery_interval := atoi value }
  else if key = "max_failed_attempts".toList then { c with max_failed_attempts := atoi value }
  else if key = "min_battery_level".toList then { c with min_battery_level := atoi value }
  else if key = "enable_notifications".toList then
    { c with enable_notifications := decide (value = "true".toList) }
  else c

/-- Mutable state of the loader: the current `section` buffer and the
config being filled in. -/
structure LoadState where
  sectionName : List Char
  config : Config
deriving DecidableEq, Repr

/-- One iteration of the `while (fgets(...))` loop of `load_config`
(lines 115-166), applied to a line whose trailing newline has already
been removed: skip comments and blank lines; a `[...]` line replaces the
current section (through the 64-byte `section` buffer: `strncpy` of at
most 63 characters, then the last character chopped); a line with `'='`
is a key/value pair; any other line is appended to the device list when
the section is `nas_devices`, the line contains `'/'` and the count is
below `MAX_NAS_DEVICES = 10`. -/
def processLine (st : LoadState) (line : List Char) : LoadState :=
  if line.head? = some '#' ∨ wsOnly line = true then st
  else if line.head? = some '[' ∧ line.getLast? = some ']' then
    { st with sectionName := ((line.drop 1).take 63).dropLast }
  else
    match splitAtEq line with
    | some (k, v) =>
      { st with config := applyKV st.config (trimLeadingWS k) (trimLeadingWS v) }
    | none =>
      if st.sectionName = "nas_devices".toList ∧ '/' ∈ line ∧
          st.config.nas_devices.length < 10 then
        { st with config :=
            { st.config with nas_devices := st.config.nas_devices ++ [ line.take 1023 ] } }
      else st

/-- One `fgets` chunk processed by the loop body: first the
`strchr(line, '\n')` truncation at the first newline, then
`processLine`. -/
def loadStep (st : LoadState) (chunk : List Char) : LoadState :=
  processLine st (chunk.takeWhile (fun c => c != '\n'))

/-- The whole `load_config` read loop over the `fgets` chunks of the file,
starting from an empty section name and the defaults (line 113). -/
def loadLines (ls : List (List Char)) : LoadState :=
  ls.foldl loadStep ⟨[], set_defaults⟩

/-- Cut a text after each `'\n'`, as `fgets` does for a file whose lines
(newline included) fit the 1024-byte buffer; `acc` holds the current
chunk reversed. -/
def chunksAcc : List Char → List Char → List (List Char)
  | [], acc => if acc = [] then [] else [ acc.reverse ]
  | c :: cs, acc =>
    if c == '\n' then (c :: acc).reverse :: chunksAcc cs []
    else chunksAcc cs (c :: acc)

/-- The list of `fgets` chunks of the text of a file. -/
def chunks (s : List Char) : List (List Char) :=
  chunksAcc s []

/-- `load_config` (lines 103-170): a missing file (`none`) yields `FALSE`
and the defaults; otherwise the text is read chunk by chunk and the call
returns `TRUE`. -/
def load_config : Option (List Char) → Bool × Config
  | none => (false, set_defaults)
  | some text => (true, (loadLines (chunks text)).config)

/-- The exact text written by `save_config` (lines 185-209), one `++` per
`fprintf` argument piece, in source order. -/
def saveText (c : Config) : List Char :=
  "# NAS Monitor Configuration File\n\n".toList
  ++ "[networks]\n".toList
  ++ "# Comma-separated list of home network SSIDs\n".toList
  ++ "home_networks=".toList ++ c.home_networks ++ "\n\n".toList
  ++ "[nas_devices]\n".toList
  ++ "# Format: host/share (one per line)\n".toList
  ++ (c.nas_devices.map (fun d => d ++ "\n".toList)).flatten
  ++ "\n[intervals]\n".toList
  ++ "# Check intervals in seconds\n".toList
  ++ "home_ac_interval=".toList ++ itoa c.home_ac_interval ++ "\n".toList
  ++ "home_battery_interval=".toList ++ itoa c.home_battery_interval ++ "\n".toList
  ++ "away_ac_interval=".toList ++ itoa c.away_ac_interval ++ "\n".toList
  ++ "away_battery_interval=".toList ++ itoa c.away_battery_interval ++ "\n".toList
  ++ "\n[behavior]\n".toList
  ++ "max_failed_attempts=".toList ++ itoa c.max_failed_attempts ++ "\n".toList
  ++ "min_battery_level=".toList ++ itoa c.min_battery_level ++ "\n".toList
  ++ "enable_notifications=".toList
  ++ (if c.enable_notifications then "true".toList else "false".toList) ++ "\n".toList

/-- The same text viewed line by line (without the newline characters).
`saveText_eq_joinNl` below proves the two views identical. -/
def saveLines (c : Config) : List (List Char) :=
  [ "# NAS Monitor Configuration File".toList, [],
    "[networks]".toList,
    "# Comma-separated list of home network SSIDs".toList,
    "home_networks=".toList ++ c.home_networks, [],
    "[nas_devices]".toList,
    "# Format: host/share (one per line)".toList ]
  ++ c.nas_devices
  ++ [ [],
    "[intervals]".toList,
    "# Check intervals in seconds".toList,
    "home_ac_interval=".toList ++ itoa c.home_ac_interval,
    "home_battery_interval=".toList ++ itoa c.home_battery_interval,
    "away_ac_interval=".toList ++ itoa c.away_ac_interval,
    "away_battery_interval=".toList ++ itoa c.away_battery_interval,
    [],
    "[behavior]".toList,
    "max_failed_attempts=".toList ++ itoa c.max_failed_attempts,
    "min_battery_level=".toList ++ itoa c.min_battery_level,
    "enable_notifications=".toList
      ++ (if c.enable_notifications then "true".toList else "false".toList) ]

/-- Render a list of lines as a text, a newline after every line. -/
def joinNl (ls : List (List Char)) : List Char :=
  (ls.map (fun l => l ++ [ '\n' ])).flatten

/-- The state change of the Add-dialog handler `on_add_nas_clicked`
(lines 295-303): append the entered text when it is non-empty, contains
`'/'` and the list is below capacity; otherwise do nothing. -/
def addDevice (c : Config) (text : List Char) : Config :=
  if 0 < text.length ∧ '/' ∈ text ∧ c.nas_devices.length < 10 then
    { c with nas_devices := c.nas_devices ++ [ text.take 1023 ] }
  else c

/-- The state change of `on_remove_nas_clicked` (lines 315-321): shift
the entries after `index` down by one and decrement the count.  For an
in-range `index` this is `take index ++ drop (index + 1)`; the outer
`take (length - 1)` reproduces the behaviour of the C loop, which drops the
last entry when `index` is out of range.  (The GUI guarantees
`index < nas_count` by requiring a selected row.) -/
def removeDevice (c : Config) (index : Nat) : Config :=
  { c with nas_devices := ((c.nas_devices.take index) ++ (c.nas_devices.drop (index + 1))).take (c.nas_devices.length - 1) }

/-- The invariant the spec states for the device list: at most 10 entries,
each non-empty and containing the separator. -/
def devicesInvariant (c : Config) : Prop :=
  c.nas_devices.length ≤ 10 ∧ ∀ d ∈ c.nas_devices, d ≠ [] ∧ '/' ∈ d

instance decidableDevicesInvariant (c : Config) : Decidable (devicesInvariant c) := by
  unfold devicesInvariant
  infer_instance

/-- The spec phrase "a value with no leading digits": after the
whitespace skip and optional sign of `atoi`, the next character (if any) is not a
decimal digit. -/
def noLeadingDigits (v : List Char) : Bool :=
  match v.dropWhile isCSpace with
  | [] => true
  | c :: rest =>
    if c == '-' || c == '+' then rest.head?.all (fun d => !d.isDigit)
    else !c.isDigit

/-- Modelled from the spec, §6 "File format": the documented sectioned
template, rendered line by line from a settings value.  Written from the
template block of the spec, to be compared with `saveText` (which follows the
`fprintf` calls of the source). -/
def specConfigText (c : Config) : List Char :=
  joinNl
    ([ "# NAS Monitor Configuration File".toList,
       [],
       "[networks]".toList,
       "# Comma-separated list of home network SSIDs".toList,
       "home_networks=".toList ++ c.home_networks,
       [],
       "[nas_devices]".toList,
       "# Format: host/share (one per line)".toList ]
     ++ c.nas_devices
     ++ [ [],
       "[intervals]".toList,
       "# Check intervals in seconds".toList,
       "home_ac_interval=".toList ++ itoa c.home_ac_interval,
       "home_battery_interval=".toList ++ itoa c.home_battery_interval,
       "away_ac_interval=".toList ++ itoa c.away_ac_interval,
       "away_battery_interval=".toList ++ itoa c.away_battery_interval,
       [],
       "[behavior]".toList,
       "max_failed_attempts=".toList ++ itoa c.max_failed_attempts,
       "min_battery_level=".toList ++ itoa c.min_battery_level,
       "enable_notifications=".toList
         ++ (if c.enable_notifications then "true".toList else "false".toList) ])

/-! ### Basic list and character lemmas -/

theorem takeWhile_ne_newline {l : List Char} (h : '\n' ∉ l) :
    l.takeWhile (fun c => c != '\n') = l := by
  induction l with
  | nil => rfl
  | cons c cs ih =>
    have hc : c ≠ '\n' := fun hc => h (hc ▸ List.mem_cons_self c cs)
    have hcs : '\n' ∉ cs := fun hm => h (List.mem_cons_of_mem c hm)
    simp [List.takeWhile_cons, hc, ih hcs]

theorem takeWhile_append_newline {l : List Char} (h : '\n' ∉ l) :
    (l ++ [ '\n' ]).takeWhile (fun c => c != '\n') = l := by
  induction l with
  | nil => rfl
  | cons c cs ih =>
    have hc : c ≠ '\n' := fun hc => h (hc ▸ List.mem_cons_self c cs)
    have hcs : '\n' ∉ cs := fun hm => h (List.mem_cons_of_mem c hm)
    simp only [List.cons_append, List.takeWhile_cons]
    simp [hc, ih hcs]

theorem trimLeadingWS_cons_of {c : Char} (cs : List Char)
    (h : (c == ' ' || c == '\t') = false) :
    trimLeadingWS (c :: cs) = c :: cs := by
  simp [trimLeadingWS, h]

theorem wsOnly_append (x y : List Char) :
    wsOnly (x ++ y) = (wsOnly x && wsOnly y) := by
  simp [wsOnly, List.all_append]

theorem wsOnly_false_left {x : List Char} (y : List Char) (h : wsOnly x = false) :
    wsOnly (x ++ y) = false := by
  rw [wsOnly_append, h, Bool.false_and]

theorem splitAtEq_of_no_eq {k : List Char} (v : List Char) (h : '=' ∉ k) :
    splitAtEq (k ++ '=' :: v) = some (k, v) := by
  induction k with
  | nil => simp [splitAtEq]
  | cons c cs ih =>
    have hc : c ≠ '=' := fun hc => h (hc ▸ List.mem_cons_self c cs)
    have hcs : '=' ∉ cs := fun hm => h (List.mem_cons_of_mem c hm)
    simp only [List.cons_append, splitAtEq, beq_iff_eq, if_neg hc, List.append_eq, ih hcs]

theorem splitAtEq_none {l : List Char} (h : '=' ∉ l) :
    splitAtEq l = none := by
  induction l with
  | nil => rfl
  | cons c cs ih =>
    have hc : c ≠ '=' := fun hc => h (hc ▸ List.mem_cons_self c cs)
    have hcs : '=' ∉ cs := fun hm => h (List.mem_cons_of_mem c hm)
    simp only [splitAtEq, beq_iff_eq, if_neg hc, ih hcs]

theorem not_skip_of_head (line : List Char) (c : Char) (hc : line.head? = some c)
    (h1 : c ≠ '#') (h2 : wsOnly line = false) :
    ¬(line.head? = some '#' ∨ wsOnly line = true) := by
  rintro (h | h)
  · rw [hc] at h
    exact h1 (Option.some.inj h)
  · rw [h2] at h
    exact Bool.false_ne_true h

theorem not_header_of_head (line : List Char) (c : Char) (hc : line.head? = some c)
    (h1 : c ≠ '[') :
    ¬(line.head? = some '[' ∧ line.getLast? = some ']') := by
  rintro ⟨h, -⟩
  rw [hc] at h
  exact h1 (Option.some.inj h)

/-! ### Branch lemmas for `processLine` -/

theorem pl_skip (st : LoadState) (line : List Char)
    (h : line.head? = some '#' ∨ wsOnly line = true) :
    processLine st line = st := by
  unfold processLine
  rw [if_pos h]

theorem pl_sectionSet (st : LoadState) (line : List Char)
    (h1 : ¬(line.head? = some '#' ∨ wsOnly line = true))
    (h2 : line.head? = some '[' ∧ line.getLast? = some ']') :
    processLine st line = { st with sectionName := ((line.drop 1).take 63).dropLast } := by
  unfold processLine
  rw [if_neg h1, if_pos h2]

theorem pl_kv (st : LoadState) {line k v : List Char}
    (h1 : ¬(line.head? = some '#' ∨ wsOnly line = true))
    (h2 : ¬(line.head? = some '[' ∧ line.getLast? = some ']'))
    (h3 : splitAtEq line = some (k, v)) :
    processLine st line
      = { st with config := applyKV st.config (trimLeadingWS k) (trimLeadingWS v) } := by
  unfold processLine
  rw [if_neg h1, if_neg h2, h3]

theorem pl_bare (st : LoadState) {line : List Char}
    (h1 : ¬(line.head? = some '#' ∨ wsOnly line = true))
    (h2 : ¬(line.head? = some '[' ∧ line.getLast? = some ']'))
    (h3 : splitAtEq line = none) :
    processLine st line
      = if st.sectionName = "nas_devices".toList ∧ '/' ∈ line ∧
            st.config.nas_devices.length < 10 then
          { st with config :=
              { st.config with nas_devices := st.config.nas_devices ++ [ line.take 1023 ] } }
        else st := by
  unfold processLine
  rw [if_neg h1, if_neg h2, h3]

/-! ### `applyKV` dispatch lemmas -/

theorem applyKV_home_networks (c : Config) (v : List Char) :
    applyKV c ( "home_networks".toList ) v = { c with home_networks := v.take 1023 } := by
  unfold applyKV
  rw [if_pos rfl]

theorem applyKV_home_ac (c : Config) (v : List Char) :
    applyKV c ( "home_ac_interval".toList ) v = { c with home_ac_interval := atoi v } := by
  unfold applyKV
  rw [if_neg (by decide), if_pos rfl]

theorem applyKV_home_battery (c : Config) (v : List Char) :
    applyKV c ( "home_battery_interval".toList ) v
      = { c with home_battery_interval := atoi v } := by
  unfold applyKV
  rw [if_neg (by decide), if_neg (by decide), if_pos rfl]

theorem applyKV_away_ac (c : Config) (v : List Char) :
    applyKV c ( "away_ac_interval".toList ) v = { c with away_ac_interval := atoi v } := by
  unfold applyKV
  rw [if_neg (by decide), if_neg (by decide), if_neg (by decide), if_pos rfl]

theorem applyKV_away_battery (c : Config) (v : List Char) :
    applyKV c ( "away_battery_interval".toList ) v
      = { c with away_battery_interval := atoi v } := by
  unfold applyKV
  rw [if_neg (by decide), if_neg (by decide), if_neg (by decide), if_neg (by decide),
    if_pos rfl]

theorem applyKV_max_failed (c : Config) (v : List Char) :
    applyKV c ( "max_failed_attempts".toList ) v
      = { c with max_failed_attempts := atoi v } := by
  unfold applyKV
  rw [if_neg (by decide), if_neg (by decide), if_neg (by decide), if_neg (by decide),
    if_neg (by decide), if_pos rfl]

theorem applyKV_min_battery (c : Config) (v : List Char) :
    applyKV c ( "min_battery_level".toList ) v
      = { c with min_battery_level := atoi v } := by
  unfold applyKV
  rw [if_neg (by decide), if_neg (by decide), if_neg (by decide), if_neg (by decide),
    if_neg (by decide), if_neg (by decide), if_pos rfl]

theorem applyKV_enable_notifications (c : Config) (v : List Char) :
    applyKV c ( "enable_notifications".toList ) v
      = { c with enable_notifications := decide (v = "true".toList) } := by
  unfold applyKV
  rw [if_neg (by decide), if_neg (by decide), if_neg (by decide), if_neg (by decide),
    if_neg (by decide), if_neg (by decide), if_neg (by decide), if_pos rfl]

theorem applyKV_unrecognized (c : Config) {k : List Char} (v : List Char)
    (h1 : k ≠ "home_networks".toList) (h2 : k ≠ "home_ac_interval".toList)
    (h3 : k ≠ "home_battery_interval".toList) (h4 : k ≠ "away_ac_interval".toList)
    (h5 : k ≠ "away_battery_interval".toList) (h6 : k ≠ "max_failed_attempts".toList)
    (h7 : k ≠ "min_battery_level".toList) (h8 : k ≠ "enable_notifications".toList) :
    applyKV c k v = c := by
  unfold applyKV
  rw [if_neg h1, if_neg h2, if_neg h3, if_neg h4, if_neg h5, if_neg h6, if_neg h7,
    if_neg h8]

theorem applyKV_nas_devices (c : Config) (k v : List Char) :
    (applyKV c k v).nas_devices = c.nas_devices := by
  unfold applyKV
  split_ifs <;> rfl

/-! ### Decimal rendering and `atoi` lemmas -/

theorem natToDigitsAux_zero (f : Nat) (acc : List Char) :
    natToDigitsAux f 0 acc = acc := by
  cases f <;> rfl

theorem natToDigitsAux_fuel : ∀ n f1 f2 acc, n ≤ f1 → n ≤ f2 →
    natToDigitsAux f1 n acc = natToDigitsAux f2 n acc := by
  intro n
  induction n using Nat.strong_induction_on with
  | _ n ih =>
    intro f1 f2 acc h1 h2
    cases n with
    | zero => rw [natToDigitsAux_zero, natToDigitsAux_zero]
    | succ m =>
      obtain ⟨g1, rfl⟩ : ∃ g, f1 = g + 1 := ⟨f1 - 1, by omega⟩
      obtain ⟨g2, rfl⟩ : ∃ g, f2 = g + 1 := ⟨f2 - 1, by omega⟩
      show natToDigitsAux g1 ((m + 1) / 10) (digitChar ((m + 1) % 10) :: acc)
        = natToDigitsAux g2 ((m + 1) / 10) (digitChar ((m + 1) % 10) :: acc)
      have hd : (m + 1) / 10 < m + 1 := Nat.div_lt_self (by omega) (by omega)
      exact ih _ hd _ _ _ (by omega) (by omega)

theorem natToDigitsAux_acc : ∀ n f acc, n ≤ f →
    natToDigitsAux f n acc = natToDigitsAux f n [] ++ acc := by
  intro n
  induction n using Nat.strong_induction_on with
  | _ n ih =>
    intro f acc h
    cases n with
    | zero => rw [natToDigitsAux_zero, natToDigitsAux_zero]; rfl
    | succ m =>
      obtain ⟨g, rfl⟩ : ∃ g, f = g + 1 := ⟨f - 1, by omega⟩
      have hd : (m + 1) / 10 < m + 1 := Nat.div_lt_self (by omega) (by omega)
      show natToDigitsAux g ((m + 1) / 10) (digitChar ((m + 1) % 10) :: acc)
        = natToDigitsAux g ((m + 1) / 10) (digitChar ((m + 1) % 10) :: []) ++ acc
      rw [ih _ hd _ (digitChar ((m + 1) % 10) :: acc) (by omega),
        ih _ hd _ (digitChar ((m + 1) % 10) :: []) (by omega), List.append_assoc]
      rfl

theorem natToDigits_pos_eq (n : Nat) (h : 0 < n) :
    natToDigits n = natToDigitsAux n n [] := by
  unfold natToDigits
  rw [if_neg (by omega)]

theorem natToDigits_small (n : Nat) (h1 : 0 < n) (h2 : n < 10) :
    natToDigits n = [ digitChar n ] := by
  rw [natToDigits_pos_eq n h1]
  obtain ⟨m, rfl⟩ : ∃ m, n = m + 1 := ⟨n - 1, by omega⟩
  show natToDigitsAux m ((m + 1) / 10) (digitChar ((m + 1) % 10) :: []) = _
  rw [Nat.div_eq_of_lt h2, natToDigitsAux_zero, Nat.mod_eq_of_lt h2]

theorem natToDigits_decomp (n : Nat) (h : 10 ≤ n) :
    natToDigits n = natToDigits (n / 10) ++ [ digitChar (n % 10) ] := by
  rw [natToDigits_pos_eq n (by omega)]
  obtain ⟨m, rfl⟩ : ∃ m, n = m + 1 := ⟨n - 1, by omega⟩
  have h10 : 0 < (m + 1) / 10 := Nat.div_pos (by omega) (by omega)
  have hlt : (m + 1) / 10 < m + 1 := Nat.div_lt_self (by omega) (by omega)
  have hle : (m + 1) / 10 ≤ m := by omega
  show natToDigitsAux m ((m + 1) / 10) (digitChar ((m + 1) % 10) :: []) = _
  rw [natToDigitsAux_acc _ _ _ hle, natToDigits_pos_eq _ h10,
    natToDigitsAux_fuel ((m + 1) / 10) m ((m + 1) / 10) [] hle (le_refl _)]

theorem digitChar_isDigit {d : Nat} (h : d < 10) : (digitChar d).isDigit = true := by
  interval_cases d <;> decide

theorem digitChar_toNat {d : Nat} (h : d < 10) : (digitChar d).toNat - 48 = d := by
  interval_cases d <;> decide

theorem natToDigits_digits : ∀ n, ∀ c ∈ natToDigits n, c.isDigit = true := by
  intro n
  induction n using Nat.strong_induction_on with
  | _ n ih =>
    intro c hc
    by_cases h0 : n = 0
    · subst h0
      rw [show natToDigits 0 = [ '0' ] from rfl] at hc
      simp only [List.mem_singleton] at hc
      subst hc
      decide
    · by_cases h10 : n < 10
      · rw [natToDigits_small n (by omega) h10] at hc
        simp only [List.mem_singleton] at hc
        subst hc
        exact digitChar_isDigit h10
      · rw [natToDigits_decomp n (by omega)] at hc
        rcases List.mem_append.1 hc with h | h
        · exact ih (n / 10) (Nat.div_lt_self (by omega) (by omega)) c h
        · simp only [List.mem_singleton] at h
          subst h
          exact digitChar_isDigit (Nat.mod_lt _ (by omega))

theorem natToDigits_ne_nil (n : Nat) : natToDigits n ≠ [] := by
  by_cases h0 : n = 0
  · subst h0
    decide
  · by_cases h10 : n < 10
    · rw [natToDigits_small n (by omega) h10]
      simp
    · rw [natToDigits_decomp n (by omega)]
      simp

theorem atoiDigits_append {l1 : List Char} (l2 : List Char)
    (h : ∀ c ∈ l1, c.isDigit = true) :
    ∀ a, atoiDigits (l1 ++ l2) a = atoiDigits l2 (atoiDigits l1 a) := by
  induction l1 with
  | nil => intro a; rfl
  | cons c cs ih =>
    intro a
    have hc : c.isDigit = true := h c (List.mem_cons_self c cs)
    simp only [List.cons_append, atoiDigits, if_pos hc]
    exact ih (fun x hx => h x (List.mem_cons_of_mem c hx)) _

theorem atoiDigits_natToDigits : ∀ n : Nat, ∀ a : Int,
    atoiDigits (natToDigits n) a = 10 ^ (natToDigits n).length * a + n := by
  intro n
  induction n using Nat.strong_induction_on with
  | _ n ih =>
    intro a
    by_cases h0 : n = 0
    · subst h0
      rw [show natToDigits 0 = [ '0' ] from rfl]
      simp only [atoiDigits, if_pos (show '0'.isDigit = true by decide)]
      rw [show (('0'.toNat - 48 : Nat) : Int) = 0 from by decide]
      simp [pow_one]
    · by_cases h10 : n < 10
      · rw [natToDigits_small n (by omega) h10]
        simp only [atoiDigits, if_pos (digitChar_isDigit h10)]
        rw [show ((digitChar n).toNat - 48 : Nat) = n from digitChar_toNat h10]
        simp [pow_one]
      · rw [natToDigits_decomp n (by omega)]
        rw [atoiDigits_append _ (fun c hc => natToDigits_digits _ c hc)]
        rw [ih (n / 10) (Nat.div_lt_self (by omega) (by omega)) a]
        have hmod : n % 10 < 10 := Nat.mod_lt _ (by omega)
        simp only [atoiDigits, if_pos (digitChar_isDigit hmod)]
        rw [show ((digitChar (n % 10)).toNat - 48 : Nat) = n % 10 from digitChar_toNat hmod]
        rw [List.length_append, List.length_singleton, pow_succ]
        have hX : (10:Int) ^ (natToDigits (n / 10)).length * 10 * a
            = 10 * ((10:Int) ^ (natToDigits (n / 10)).length * a) := by ring
        rw [hX]
        generalize (10:Int) ^ (natToDigits (n / 10)).length * a = X
        omega

theorem isDigit_not_special {c : Char} (h : c.isDigit = true) :
    c ≠ '\n' ∧ c ≠ '-' ∧ c ≠ '+' ∧ c ≠ '=' ∧ (c == ' ' || c == '\t') = false
      ∧ isCSpace c = false := by
  refine ⟨?_, ?_, ?_, ?_, ?_, ?_⟩
  · intro hc; subst hc; exact absurd h (by decide)
  · intro hc; subst hc; exact absurd h (by decide)
  · intro hc; subst hc; exact absurd h (by decide)
  · intro hc; subst hc; exact absurd h (by decide)
  · cases hcw : (c == ' ' || c == '\t') with
    | false => rfl
    | true =>
      simp only [Bool.or_eq_true, beq_iff_eq] at hcw
      rcases hcw with hc | hc <;> (subst hc; exact absurd h (by decide))
  · cases hcw : isCSpace c with
    | false => rfl
    | true =>
      simp only [isCSpace, Bool.or_eq_true, beq_iff_eq] at hcw
      rcases hcw with ((((hc | hc) | hc) | hc) | hc) | hc <;>
        (subst hc; exact absurd h (by decide))

theorem atoiDigits_natToDigits_zero (m : Nat) : atoiDigits (natToDigits m) 0 = m := by
  rw [atoiDigits_natToDigits m 0]
  simp

theorem atoi_natToDigits (m : Nat) : atoi (natToDigits m) = m := by
  obtain ⟨c, rest, hnd⟩ : ∃ c rest, natToDigits m = c :: rest := by
    cases hnd : natToDigits m with
    | nil => exact absurd hnd (natToDigits_ne_nil m)
    | cons c rest => exact ⟨c, rest, rfl⟩
  have hc : c.isDigit = true := natToDigits_digits m c (by rw [hnd]; exact List.mem_cons_self c rest)
  obtain ⟨-, hminus, hplus, -, -, hsp⟩ := isDigit_not_special hc
  rw [atoi, hnd, List.dropWhile_cons, hsp]
  rw [if_neg (show ¬(false = true) from by decide)]
  show (if (c == '-') = true then - atoiDigits rest 0
    else if (c == '+') = true then atoiDigits rest 0 else atoiDigits (c :: rest) 0) = (m : Int)
  rw [if_neg (by simpa using hminus), if_neg (by simpa using hplus), ← hnd,
    atoiDigits_natToDigits_zero]

theorem atoi_itoa (n : Int) : atoi (itoa n) = n := by
  unfold itoa
  split_ifs with hneg
  · rw [atoi, List.dropWhile_cons, show isCSpace '-' = false from by decide]
    rw [if_neg (show ¬(false = true) from by decide)]
    show - atoiDigits (natToDigits (-n).toNat) 0 = n
    rw [atoiDigits_natToDigits_zero, Int.toNat_of_nonneg (by omega)]
    omega
  · rw [atoi_natToDigits, Int.toNat_of_nonneg (by omega)]

theorem mem_itoa {c : Char} {n : Int} (h : c ∈ itoa n) : c = '-' ∨ c.isDigit = true := by
  unfold itoa at h
  split_ifs at h with hneg
  · rcases List.mem_cons.1 h with hc | hc
    · exact Or.inl hc
    · exact Or.inr (natToDigits_digits _ c hc)
  · exact Or.inr (natToDigits_digits _ c h)

theorem newline_not_mem_itoa (n : Int) : '\n' ∉ itoa n := by
  intro h
  rcases mem_itoa h with hc | hc
  · exact absurd hc (by decide)
  · exact absurd hc (by decide)

theorem trim_itoa (n : Int) : trimLeadingWS (itoa n) = itoa n := by
  unfold itoa
  split_ifs with hneg
  · exact trimLeadingWS_cons_of _ (by decide)
  · obtain ⟨c, rest, hnd⟩ : ∃ c rest, natToDigits n.toNat = c :: rest := by
      cases hnd : natToDigits n.toNat with
      | nil => exact absurd hnd (natToDigits_ne_nil _)
      | cons c rest => exact ⟨c, rest, rfl⟩
    have hc : c.isDigit = true :=
      natToDigits_digits _ c (by rw [hnd]; exact List.mem_cons_self c rest)
    obtain ⟨-, -, -, -, hws, -⟩ := isDigit_not_special hc
    rw [hnd, trimLeadingWS_cons_of _ hws]

/-! ### `fgets` chunking lemmas -/

theorem chunksAcc_extract : ∀ (l : List Char) (rest acc : List Char), '\n' ∉ l →
    chunksAcc (l ++ '\n' :: rest) acc
      = (acc.reverse ++ (l ++ [ '\n' ])) :: chunksAcc rest [] := by
  intro l
  induction l with
  | nil =>
    intro rest acc h
    simp [chunksAcc]
  | cons c cs ih =>
    intro rest acc h
    have hc : c ≠ '\n' := fun hc => h (hc ▸ List.mem_cons_self c cs)
    have hcs : '\n' ∉ cs := fun hm => h (List.mem_cons_of_mem c hm)
    simp only [List.cons_append, chunksAcc, beq_iff_eq, if_neg hc, List.append_eq]
    rw [ih rest (c :: acc) hcs]
    simp

theorem chunksAcc_line {l : List Char} (rest : List Char) (h : '\n' ∉ l) :
    chunksAcc (l ++ '\n' :: rest) [] = (l ++ [ '\n' ]) :: chunksAcc rest [] := by
  rw [chunksAcc_extract l rest [] h]
  simp

theorem joinNl_nil : joinNl [] = [] := rfl

theorem joinNl_cons (l : List Char) (ls : List (List Char)) :
    joinNl (l :: ls) = l ++ '\n' :: joinNl ls := by
  simp [joinNl]

theorem joinNl_append (a b : List (List Char)) :
    joinNl (a ++ b) = joinNl a ++ joinNl b := by
  simp [joinNl]

theorem chunks_joinNl : ∀ ls : List (List Char), (∀ l ∈ ls, '\n' ∉ l) →
    chunks (joinNl ls) = ls.map (fun l => l ++ [ '\n' ]) := by
  intro ls
  induction ls with
  | nil => intro h; rfl
  | cons l ls ih =>
    intro h
    rw [joinNl_cons]
    unfold chunks
    rw [chunksAcc_line (joinNl ls) (h l (List.mem_cons_self l ls))]
    rw [show chunksAcc (joinNl ls) [] = chunks (joinNl ls) from rfl]
    rw [ih (fun x hx => h x (List.mem_cons_of_mem l hx)), List.map_cons]

/-! ### Reading back the saved text -/

theorem loadStep_newline (st : LoadState) {l : List Char} (h : '\n' ∉ l) :
    loadStep st (l ++ [ '\n' ]) = processLine st l := by
  unfold loadStep
  rw [takeWhile_append_newline h]

theorem foldl_loadStep_map : ∀ (ls : List (List Char)) (st : LoadState),
    (∀ l ∈ ls, '\n' ∉ l) →
    (ls.map (fun l => l ++ [ '\n' ])).foldl loadStep st = ls.foldl processLine st := by
  intro ls
  induction ls with
  | nil => intro st h; rfl
  | cons l ls ih =>
    intro st h
    rw [List.map_cons, List.foldl_cons, List.foldl_cons,
      loadStep_newline st (h l (List.mem_cons_self l ls))]
    exact ih _ (fun x hx => h x (List.mem_cons_of_mem l hx))

set_option maxRecDepth 20000 in
theorem saveText_eq_joinNl (c : Config) : saveText c = joinNl (saveLines c) := by
  unfold saveText saveLines joinNl
  simp only [List.map_append, List.map_cons, List.map_nil, List.flatten_append,
    List.flatten_cons, List.flatten_nil, List.append_assoc, List.nil_append,
    List.append_nil]
  rfl

theorem saveLines_no_newline {c : Config} (hhn : '\n' ∉ c.home_networks)
    (hdev : ∀ d ∈ c.nas_devices, '\n' ∉ d) :
    ∀ l ∈ saveLines c, '\n' ∉ l := by
  intro l hl hmem
  unfold saveLines at hl
  rcases List.mem_append.1 hl with hl | hl
  · rcases List.mem_append.1 hl with hl | hl
    · simp only [List.mem_cons, List.not_mem_nil, or_false] at hl
      rcases hl with rfl | rfl | rfl | rfl | rfl | rfl | rfl | rfl
      · exact absurd hmem (by decide)
      · exact absurd hmem (by decide)
      · exact absurd hmem (by decide)
      · exact absurd hmem (by decide)
      · rcases List.mem_append.1 hmem with h | h
        · exact absurd h (by decide)
        · exact hhn h
      · exact absurd hmem (by decide)
      · exact absurd hmem (by decide)
      · exact absurd hmem (by decide)
    · exact hdev l hl hmem
  · simp only [List.mem_cons, List.not_mem_nil, or_false] at hl
    rcases hl with rfl | rfl | rfl | rfl | rfl | rfl | rfl | rfl | rfl | rfl | rfl | rfl
    · exact absurd hmem (by decide)
    · exact absurd hmem (by decide)
    · exact absurd hmem (by decide)
    · rcases List.mem_append.1 hmem with h | h
      · exact absurd h (by decide)
      · exact newline_not_mem_itoa _ h
    · rcases List.mem_append.1 hmem with h | h
      · exact absurd h (by decide)
      · exact newline_not_mem_itoa _ h
    · rcases List.mem_append.1 hmem with h | h
      · exact absurd h (by decide)
      · exact newline_not_mem_itoa _ h
    · rcases List.mem_append.1 hmem with h | h
      · exact absurd h (by decide)
      · exact newline_not_mem_itoa _ h
    · exact absurd hmem (by decide)
    · exact absurd hmem (by decide)
    · rcases List.mem_append.1 hmem with h | h
      · exact absurd h (by decide)
      · exact newline_not_mem_itoa _ h
    · rcases List.mem_append.1 hmem with h | h
      · exact absurd h (by decide)
      · exact newline_not_mem_itoa _ h
    · rcases List.mem_append.1 hmem with h | h
      · exact absurd h (by decide)
      · cases hb : c.enable_notifications <;> rw [hb] at h
        · exact absurd h (by decide)
        · exact absurd h (by decide)

theorem load_of_saveText {c : Config} (hhn : '\n' ∉ c.home_networks)
    (hdev : ∀ d ∈ c.nas_devices, '\n' ∉ d) :
    loadLines (chunks (saveText c)) = (saveLines c).foldl processLine ⟨[], set_defaults⟩ := by
  rw [saveText_eq_joinNl, chunks_joinNl _ (saveLines_no_newline hhn hdev)]
  unfold loadLines
  exact foldl_loadStep_map _ _ (saveLines_no_newline hhn hdev)

/-! ### The saved file, line by line -/

theorem wsOnly_false_of_slash {d : List Char} (h : '/' ∈ d) : wsOnly d = false := by
  cases hw : wsOnly d with
  | false => rfl
  | true =>
    unfold wsOnly at hw
    rw [List.all_eq_true] at hw
    have := hw '/' h
    simp at this

theorem pl_header_comment (st : LoadState) :
    processLine st ( "# NAS Monitor Configuration File".toList ) = st :=
  pl_skip _ _ (Or.inl rfl)

theorem pl_blank (st : LoadState) : processLine st [] = st :=
  pl_skip _ _ (Or.inr rfl)

theorem pl_comment_networks (st : LoadState) :
    processLine st ( "# Comma-separated list of home network SSIDs".toList ) = st :=
  pl_skip _ _ (Or.inl rfl)

theorem pl_comment_format (st : LoadState) :
    processLine st ( "# Format: host/share (one per line)".toList ) = st :=
  pl_skip _ _ (Or.inl rfl)

theorem pl_comment_intervals (st : LoadState) :
    processLine st ( "# Check intervals in seconds".toList ) = st :=
  pl_skip _ _ (Or.inl rfl)

theorem pl_sec_networks (st : LoadState) :
    processLine st ( "[networks]".toList ) = { st with sectionName := "networks".toList } := by
  rw [pl_sectionSet st _ (by decide) (by decide)]
  rw [show ((( "[networks]".toList ).drop 1).take 63).dropLast = "networks".toList from by decide]

theorem pl_sec_nas (st : LoadState) :
    processLine st ( "[nas_devices]".toList )
      = { st with sectionName := "nas_devices".toList } := by
  rw [pl_sectionSet st _ (by decide) (by decide)]
  rw [show ((( "[nas_devices]".toList ).drop 1).take 63).dropLast = "nas_devices".toList
    from by decide]

theorem pl_sec_intervals (st : LoadState) :
    processLine st ( "[intervals]".toList )
      = { st with sectionName := "intervals".toList } := by
  rw [pl_sectionSet st _ (by decide) (by decide)]
  rw [show ((( "[intervals]".toList ).drop 1).take 63).dropLast = "intervals".toList
    from by decide]

theorem pl_sec_behavior (st : LoadState) :
    processLine st ( "[behavior]".toList )
      = { st with sectionName := "behavior".toList } := by
  rw [pl_sectionSet st _ (by decide) (by decide)]
  rw [show ((( "[behavior]".toList ).drop 1).take 63).dropLast = "behavior".toList
    from by decide]

theorem pl_home_networks_line (st : LoadState) (v : List Char) :
    processLine st ( "home_networks=".toList ++ v )
      = { st with config :=
          { st.config with home_networks := (trimLeadingWS v).take 1023 } } := by
  rw [show ( "home_networks=".toList ++ v ) = ( "home_networks".toList ++ '=' :: v ) from rfl,
    pl_kv st (not_skip_of_head ( "home_networks".toList ++ '=' :: v ) 'h' rfl (by decide)
        (wsOnly_false_left _ (by decide)))
      (not_header_of_head ( "home_networks".toList ++ '=' :: v ) 'h' rfl (by decide))
      (splitAtEq_of_no_eq v (by decide)),
    show trimLeadingWS ( "home_networks".toList ) = "home_networks".toList from by decide,
    applyKV_home_networks]

theorem pl_home_ac_line (st : LoadState) (v : List Char) :
    processLine st ( "home_ac_interval=".toList ++ v )
      = { st with config :=
          { st.config with home_ac_interval := atoi (trimLeadingWS v) } } := by
  rw [show ( "home_ac_interval=".toList ++ v ) = ( "home_ac_interval".toList ++ '=' :: v )
      from rfl,
    pl_kv st (not_skip_of_head ( "home_ac_interval".toList ++ '=' :: v ) 'h' rfl (by decide)
        (wsOnly_false_left _ (by decide)))
      (not_header_of_head ( "home_ac_interval".toList ++ '=' :: v ) 'h' rfl (by decide))
      (splitAtEq_of_no_eq v (by decide)),
    show trimLeadingWS ( "home_ac_interval".toList ) = "home_ac_interval".toList
      from by decide,
    applyKV_home_ac]

theorem pl_home_battery_line (st : LoadState) (v : List Char) :
    processLine st ( "home_battery_interval=".toList ++ v )
      = { st with config :=
          { st.config with home_battery_interval := atoi (trimLeadingWS v) } } := by
  rw [show ( "home_battery_interval=".toList ++ v )
      = ( "home_battery_interval".toList ++ '=' :: v ) from rfl,
    pl_kv st (not_skip_of_head ( "home_battery_interval".toList ++ '=' :: v ) 'h' rfl (by decide)
        (wsOnly_false_left _ (by decide)))
      (not_header_of_head ( "home_battery_interval".toList ++ '=' :: v ) 'h' rfl (by decide))
      (splitAtEq_of_no_eq v (by decide)),
    show trimLeadingWS ( "home_battery_interval".toList ) = "home_battery_interval".toList
      from by decide,
    applyKV_home_battery]

theorem pl_away_ac_line (st : LoadState) (v : List Char) :
    processLine st ( "away_ac_interval=".toList ++ v )
      = { st with config :=
          { st.config with away_ac_interval := atoi (trimLeadingWS v) } } := by
  rw [show ( "away_ac_interval=".toList ++ v ) = ( "away_ac_interval".toList ++ '=' :: v )
      from rfl,
    pl_kv st (not_skip_of_head ( "away_ac_interval".toList ++ '=' :: v ) 'a' rfl (by decide)
        (wsOnly_false_left _ (by decide)))
      (not_header_of_head ( "away_ac_interval".toList ++ '=' :: v ) 'a' rfl (by decide))
      (splitAtEq_of_no_eq v (by decide)),
    show trimLeadingWS ( "away_ac_interval".toList ) = "away_ac_interval".toList
      from by decide,
    applyKV_away_ac]

theorem pl_away_battery_line (st : LoadState) (v : List Char) :
    processLine st ( "away_battery_interval=".toList ++ v )
      = { st with config :=
          { st.config with away_battery_interval := atoi (trimLeadingWS v) } } := by
  rw [show ( "away_battery_interval=".toList ++ v )
      = ( "away_battery_interval".toList ++ '=' :: v ) from rfl,
    pl_kv st (not_skip_of_head ( "away_battery_interval".toList ++ '=' :: v ) 'a' rfl (by decide)
        (wsOnly_false_left _ (by decide)))
      (not_header_of_head ( "away_battery_interval".toList ++ '=' :: v ) 'a' rfl (by decide))
      (splitAtEq_of_no_eq v (by decide)),
    show trimLeadingWS ( "away_battery_interval".toList ) = "away_battery_interval".toList
      from by decide,
    applyKV_away_battery]

theorem pl_max_failed_line (st : LoadState) (v : List Char) :
    processLine st ( "max_failed_attempts=".toList ++ v )
      = { st with config :=
          { st.config with max_failed_attempts := atoi (trimLeadingWS v) } } := by
  rw [show ( "max_failed_attempts=".toList ++ v )
      = ( "max_failed_attempts".toList ++ '=' :: v ) from rfl,
    pl_kv st (not_skip_of_head ( "max_failed_attempts".toList ++ '=' :: v ) 'm' rfl (by decide)
        (wsOnly_false_left _ (by decide)))
      (not_header_of_head ( "max_failed_attempts".toList ++ '=' :: v ) 'm' rfl (by decide))
      (splitAtEq_of_no_eq v (by decide)),
    show trimLeadingWS ( "max_failed_attempts".toList ) = "max_failed_attempts".toList
      from by decide,
    applyKV_max_failed]

theorem pl_min_battery_line (st : LoadState) (v : List Char) :
    processLine st ( "min_battery_level=".toList ++ v )
      = { st with config :=
          { st.config with min_battery_level := atoi (trimLeadingWS v) } } := by
  rw [show ( "min_battery_level=".toList ++ v )
      = ( "min_battery_level".toList ++ '=' :: v ) from rfl,
    pl_kv st (not_skip_of_head ( "min_battery_level".toList ++ '=' :: v ) 'm' rfl (by decide)
        (wsOnly_false_left _ (by decide)))
      (not_header_of_head ( "min_battery_level".toList ++ '=' :: v ) 'm' rfl (by decide))
      (splitAtEq_of_no_eq v (by decide)),
    show trimLeadingWS ( "min_battery_level".toList ) = "min_battery_level".toList
      from by decide,
    applyKV_min_battery]

theorem pl_enable_line (st : LoadState) (v : List Char) :
    processLine st ( "enable_notifications=".toList ++ v )
      = { st with config :=
          { st.config with
            enable_notifications := decide (trimLeadingWS v = "true".toList) } } := by
  rw [show ( "enable_notifications=".toList ++ v )
      = ( "enable_notifications".toList ++ '=' :: v ) from rfl,
    pl_kv st (not_skip_of_head ( "enable_notifications".toList ++ '=' :: v ) 'e' rfl (by decide)
        (wsOnly_false_left _ (by decide)))
      (not_header_of_head ( "enable_notifications".toList ++ '=' :: v ) 'e' rfl (by decide))
      (splitAtEq_of_no_eq v (by decide)),
    show trimLeadingWS ( "enable_notifications".toList ) = "enable_notifications".toList
      from by decide,
    applyKV_enable_notifications]

theorem enable_token_roundtrip (b : Bool) :
    decide (trimLeadingWS (if b then "true".toList else "false".toList)
      = "true".toList) = b := by
  cases b <;> decide

theorem fold_devices : ∀ (devs : List (List Char)) (st : LoadState),
    st.sectionName = "nas_devices".toList →
    (∀ d ∈ devs, '/' ∈ d ∧ '=' ∉ d ∧ d.head? ≠ some '#' ∧
      ¬(d.head? = some '[' ∧ d.getLast? = some ']') ∧ d.length ≤ 1023) →
    st.config.nas_devices.length + devs.length ≤ 10 →
    devs.foldl processLine st
      = { st with config :=
          { st.config with nas_devices := st.config.nas_devices ++ devs } } := by
  intro devs
  induction devs with
  | nil =>
    intro st hsec hgood hlen
    rw [List.foldl_nil, List.append_nil]
  | cons d ds ih =>
    intro st hsec hgood hlen
    obtain ⟨hslash, heq, hhash, hbra, hlen1023⟩ := hgood d (List.mem_cons_self d ds)
    have hws : wsOnly d = false := wsOnly_false_of_slash hslash
    have hskip : ¬(d.head? = some '#' ∨ wsOnly d = true) := by
      rintro (h | h)
      · exact hhash h
      · rw [hws] at h
        exact Bool.false_ne_true h
    rw [List.foldl_cons, pl_bare st hskip hbra (splitAtEq_none heq),
      if_pos ⟨hsec, hslash, by simp at hlen; omega⟩, List.take_of_length_le hlen1023]
    rw [ih { st with config :=
        { st.config with nas_devices := st.config.nas_devices ++ [ d ] } }
      hsec (fun x hx => hgood x (List.mem_cons_of_mem d hx))
      (by simp; simp at hlen; omega)]
    simp [List.append_assoc]

/-! ### Folding the loader over the saved file -/

theorem foldl_saveLines (c : Config)
    (h1 : trimLeadingWS c.home_networks = c.home_networks)
    (h3 : c.home_networks.length ≤ 1023)
    (hcount : c.nas_devices.length ≤ 10)
    (hdev : ∀ d ∈ c.nas_devices, '/' ∈ d ∧ '=' ∉ d ∧ d.head? ≠ some '#' ∧
      ¬(d.head? = some '[' ∧ d.getLast? = some ']') ∧ d.length ≤ 1023) :
    (saveLines c).foldl processLine ⟨[], set_defaults⟩ = ⟨ "behavior".toList, c ⟩ := by
  have hA : List.foldl processLine ⟨[], set_defaults⟩
      [ "# NAS Monitor Configuration File".toList, [],
        "[networks]".toList,
        "# Comma-separated list of home network SSIDs".toList,
        "home_networks=".toList ++ c.home_networks, [],
        "[nas_devices]".toList,
        "# Format: host/share (one per line)".toList ]
      = ⟨ "nas_devices".toList,
          { set_defaults with
            home_networks := (trimLeadingWS c.home_networks).take 1023 } ⟩ := by
    simp only [List.foldl_cons, List.foldl_nil]
    rw [pl_header_comment, pl_blank, pl_sec_networks, pl_comment_networks,
      pl_home_networks_line, pl_blank, pl_sec_nas, pl_comment_format]
  have hB : List.foldl processLine
      ⟨ "nas_devices".toList,
        { set_defaults with
          home_networks := (trimLeadingWS c.home_networks).take 1023 } ⟩
      c.nas_devices
      = ⟨ "nas_devices".toList,
          { set_defaults with
            home_networks := (trimLeadingWS c.home_networks).take 1023,
            nas_devices := c.nas_devices } ⟩ := by
    rw [fold_devices c.nas_devices
      ⟨ "nas_devices".toList,
        { set_defaults with
          home_networks := (trimLeadingWS c.home_networks).take 1023 } ⟩
      rfl hdev
      (by show ([] : List (List Char)).length + c.nas_devices.length ≤ 10
          simpa using hcount)]
    rfl
  unfold saveLines
  rw [List.foldl_append, List.foldl_append, hA, hB]
  simp only [List.foldl_cons, List.foldl_nil]
  rw [pl_blank, pl_sec_intervals, pl_comment_intervals, pl_home_ac_line,
    pl_home_battery_line, pl_away_ac_line, pl_away_battery_line, pl_blank,
    pl_sec_behavior, pl_max_failed_line, pl_min_battery_line, pl_enable_line]
  rw [h1, List.take_of_length_le h3]
  simp only [trim_itoa, atoi_itoa, enable_token_roundtrip]

/-- Claim C1 (amended): saving an in-range settings value and loading the
resulting file reproduces every field (and hence a second save writes the
same bytes), provided the fields survive the line-oriented text format:
`home_networks` has no leading space or tab, no newline, and fits the
line buffer (at most 1008 characters); there are at most 10 device
entries, and each contains `'/'`, contains no `'='` and no newline, does
not start with `'#'`, is not of the bracketed `[...]` section-header
shape, and fits the line buffer (at most 1022 characters). -/
theorem C1_roundtrip (c : Config)
    (hhn_trim : trimLeadingWS c.home_networks = c.home_networks)
    (hhn_nl : '\n' ∉ c.home_networks)
    (hhn_len : c.home_networks.length ≤ 1008)
    (hcount : c.nas_devices.length ≤ 10)
    (hdev : ∀ d ∈ c.nas_devices, '/' ∈ d ∧ '=' ∉ d ∧ '\n' ∉ d ∧ d.head? ≠ some '#' ∧
      ¬(d.head? = some '[' ∧ d.getLast? = some ']') ∧ d.length ≤ 1022) :
    load_config (some (saveText c)) = (true, c) := by
  have hdevnl : ∀ d ∈ c.nas_devices, '\n' ∉ d := fun d hd => (hdev d hd).2.2.1
  show (true, (loadLines (chunks (saveText c))).config) = (true, c)
  rw [load_of_saveText hhn_nl hdevnl, foldl_saveLines c hhn_trim (by omega) hcount
    (fun d hd => ⟨(hdev d hd).1, (hdev d hd).2.1, (hdev d hd).2.2.2.1,
      (hdev d hd).2.2.2.2.1, by have := (hdev d hd).2.2.2.2.2; omega⟩)]

/-- Witness for C1: a concrete in-range settings value round-trips. -/
theorem C1_roundtrip_witness :
    load_config (some (saveText
      { home_networks := "Office,Home".toList,
        nas_devices := [ "nas1.local/media".toList, "backup.local/data".toList ],
        home_ac_interval := 20, home_battery_interval := 60,
        away_ac_interval := 180, away_battery_interval := 600,
        max_failed_attempts := 3, min_battery_level := 10,
        enable_notifications := false }))
      = (true,
        { home_networks := "Office,Home".toList,
          nas_devices := [ "nas1.local/media".toList, "backup.local/data".toList ],
          home_ac_interval := 20, home_battery_interval := 60,
          away_ac_interval := 180, away_battery_interval := 600,
          max_failed_attempts := 3, min_battery_level := 10,
          enable_notifications := false }) :=
  C1_roundtrip _ (by decide) (by decide) (by decide) (by decide) (by decide)

/-- Counterexample to C1 as stated: the settings value whose
`home_networks` is `" x"` satisfies the stated invariants of the claim (no
device entries at all), yet the round trip loses the leading space,
because `load_config` trims leading spaces and tabs from every parsed
value. -/
theorem C1_roundtrip_counterexample :
    load_config (some (saveText { set_defaults with home_networks := " x".toList }))
      ≠ (true, { set_defaults with home_networks := " x".toList }) := by
  decide

/-! ### Claims C2, C3, C4 -/

/-- Claim C2 (amended): appending a device is rejected, with no state
change, when the text is empty, has no `'/'`, or the list is at its
capacity of 10; otherwise the entry appended at the end is the first
1023 characters of the text (the text itself whenever it has at most
1023 characters, the `strncpy` buffer bound), the count grows by one,
and nothing else changes. -/
theorem C2_append (c : Config) (d : List Char) (hinv : c.nas_devices.length ≤ 10) :
    ((d = [] ∨ '/' ∉ d ∨ c.nas_devices.length = 10) → addDevice c d = c) ∧
    (d ≠ [] → '/' ∈ d → c.nas_devices.length ≠ 10 →
      addDevice c d = { c with nas_devices := c.nas_devices ++ [ d.take 1023 ] }) := by
  constructor
  · rintro (rfl | h | h)
    · unfold addDevice
      rw [if_neg]
      rintro ⟨h0, -, -⟩
      simp at h0
    · unfold addDevice
      rw [if_neg]
      rintro ⟨-, hs, -⟩
      exact h hs
    · unfold addDevice
      rw [if_neg]
      rintro ⟨-, -, hlt⟩
      omega
  · intro h0 hs hne
    unfold addDevice
    rw [if_pos ⟨List.length_pos.mpr h0, hs, by omega⟩]

/-- Witness for C2: `"noSlashHere"` is rejected; `"host/share"` is
appended verbatim at the end. -/
theorem C2_append_witness :
    (addDevice set_defaults ( "noSlashHere".toList ) = set_defaults) ∧
    (addDevice set_defaults ( "host/share".toList )
      = { set_defaults with nas_devices := [ "host/share".toList ] }) := by
  constructor
  · exact (C2_append set_defaults ( "noSlashHere".toList ) (by decide)).1
      (Or.inr (Or.inl (by decide)))
  · rw [(C2_append set_defaults ( "host/share".toList ) (by decide)).2
      (by decide) (by decide) (by decide)]
    decide

set_option maxRecDepth 100000 in
/-- Counterexample to C2 as stated: a 1024-character device string with
a `'/'` passes validation but is stored truncated to its first 1023
characters, not as the string `d` itself. -/
theorem C2_append_counterexample :
    (addDevice set_defaults ( '/' :: List.replicate 1023 'a' )).nas_devices
      ≠ [ '/' :: List.replicate 1023 'a' ] := by
  decide

/-- Claim C3: loading a nonexistent path returns a non-fatal `FALSE` and
exactly the documented default values. -/
theorem C3_defaults :
    load_config none = (false, set_defaults) ∧
    set_defaults
      = { home_networks := [],
          nas_devices := [],
          home_ac_interval := 15,
          home_battery_interval := 60,
          away_ac_interval := 180,
          away_battery_interval := 600,
          max_failed_attempts := 3,
          min_battery_level := 10,
          enable_notifications := true } :=
  ⟨rfl, rfl⟩

/-- Claim C4: loading never rejects a malformed value: the load loop
always returns `TRUE`; an integer value with no leading digits (after
the whitespace and sign handling of `atoi`) is coerced to 0; a boolean value
other than the exact token `"true"` is coerced to `false`; and a file
with `home_ac_interval=abc` loads with that field 0 and the other fields
read normally. -/
theorem C4_tolerant :
    (∀ text : List Char, (load_config (some text)).fst = true) ∧
    (∀ v : List Char, noLeadingDigits v = true → atoi v = 0) ∧
    (∀ (st : LoadState) (v : List Char), trimLeadingWS v ≠ "true".toList →
      (processLine st ( "enable_notifications=".toList ++ v )).config.enable_notifications
        = false) ∧
    (loadLines [ "home_ac_interval=abc".toList, "min_battery_level=7".toList ]).config
      = { set_defaults with home_ac_interval := 0, min_battery_level := 7 } := by
  refine ⟨fun text => rfl, ?_, ?_, by decide⟩
  · intro v h
    unfold atoi
    unfold noLeadingDigits at h
    cases hw : v.dropWhile isCSpace with
    | nil => rfl
    | cons c rest =>
      rw [hw] at h
      have h' : (if (c == '-' || c == '+') = true then
          rest.head?.all (fun d => !d.isDigit) else !c.isDigit) = true := h
      have hrest0 : (c == '-' || c == '+') = true → atoiDigits rest 0 = 0 := by
        intro hc
        rw [if_pos hc] at h'
        cases rest with
        | nil => rfl
        | cons d ds =>
          have hd' : d.isDigit = false := by simpa using h'
          simp [atoiDigits, hd']
      show (if c == '-' then - atoiDigits rest 0
        else if c == '+' then atoiDigits rest 0 else atoiDigits (c :: rest) 0) = 0
      by_cases h1 : (c == '-') = true
      · rw [if_pos h1, hrest0 (by simp [h1]), neg_zero]
      · rw [if_neg h1]
        by_cases h2 : (c == '+') = true
        · rw [if_pos h2, hrest0 (by simp [h2])]
        · rw [if_neg h2]
          have hcd : c.isDigit = false := by
            rw [if_neg (by simp [h1, h2])] at h'
            simpa using h'
          simp [atoiDigits, hcd]
  · intro st v hv
    rw [pl_enable_line]
    show decide (trimLeadingWS v = "true".toList) = false
    simpa using hv

/-- Witness for C4: `atoi "abc" = 0` and `enable_notifications=yes`
parses to `false`. -/
theorem C4_tolerant_witness :
    atoi ( "abc".toList ) = 0 ∧
    (processLine ⟨[], set_defaults⟩
      ( "enable_notifications=".toList ++ "yes".toList )).config.enable_notifications
      = false :=
  ⟨C4_tolerant.2.1 _ (by decide), C4_tolerant.2.2.1 _ _ (by decide)⟩

/-! ### Claims C5 and C6 -/

/-- Claim C5: the text written by save is exactly the fixed-order
sectioned layout of the spec, §6: the header comment, then the
`[networks]`, `[nas_devices]`, `[intervals]`, `[behavior]` sections in
that order with their fixed comment lines, the `home_networks=` line,
one line per stored device in list order, the four interval lines in the
documented order, then `max_failed_attempts`, `min_battery_level`, and
`enable_notifications` rendered as `true` or `false`. -/
theorem C5_layout (c : Config) : saveText c = specConfigText c := by
  rw [saveText_eq_joinNl]
  rfl

theorem wsOnly_false_of_mem {d : List Char} {c : Char} (h : c ∈ d)
    (hc : (c == ' ' || c == '\t') = false) : wsOnly d = false := by
  cases hw : wsOnly d with
  | false => rfl
  | true =>
    unfold wsOnly at hw
    rw [List.all_eq_true] at hw
    have := hw c h
    rw [hc] at this
    exact absurd this (by decide)

theorem configExt {x y : Config}
    (h1 : x.home_networks = y.home_networks) (h2 : x.nas_devices = y.nas_devices)
    (h3 : x.home_ac_interval = y.home_ac_interval)
    (h4 : x.home_battery_interval = y.home_battery_interval)
    (h5 : x.away_ac_interval = y.away_ac_interval)
    (h6 : x.away_battery_interval = y.away_battery_interval)
    (h7 : x.max_failed_attempts = y.max_failed_attempts)
    (h8 : x.min_battery_level = y.min_battery_level)
    (h9 : x.enable_notifications = y.enable_notifications) : x = y := by
  cases x
  cases y
  simp_all

theorem ite_ite_comm {α : Type} {a b : List Char} (K : List Char) (x y z : α)
    (hne : a ≠ b) :
    (if a = K then x else if b = K then y else z)
      = (if b = K then y else if a = K then x else z) := by
  by_cases h1 : a = K
  · by_cases h2 : b = K
    · exact absurd (h1.trans h2.symm) hne
    · rw [if_pos h1, if_neg h2, if_pos h1]
  · rw [if_neg h1]
    by_cases h2 : b = K
    · rw [if_pos h2, if_pos h2]
    · rw [if_neg h2, if_neg h2, if_neg h1]

theorem applyKV_hn_proj (c : Config) (k v : List Char) :
    (applyKV c k v).home_networks
      = if k = "home_networks".toList then v.take 1023 else c.home_networks := by
  by_cases h : k = "home_networks".toList
  · subst h
    rw [applyKV_home_networks, if_pos rfl]
  · rw [if_neg h]
    unfold applyKV
    split_ifs <;> rfl

theorem applyKV_hac_proj (c : Config) (k v : List Char) :
    (applyKV c k v).home_ac_interval
      = if k = "home_ac_interval".toList then atoi v else c.home_ac_interval := by
  by_cases h : k = "home_ac_interval".toList
  · subst h
    rw [applyKV_home_ac, if_pos rfl]
  · rw [if_neg h]
    unfold applyKV
    split_ifs <;> rfl

theorem applyKV_hbat_proj (c : Config) (k v : List Char) :
    (applyKV c k v).home_battery_interval
      = if k = "home_battery_interval".toList then atoi v else c.home_battery_interval := by
  by_cases h : k = "home_battery_interval".toList
  · subst h
    rw [applyKV_home_battery, if_pos rfl]
  · rw [if_neg h]
    unfold applyKV
    split_ifs <;> rfl

theorem applyKV_aac_proj (c : Config) (k v : List Char) :
    (applyKV c k v).away_ac_interval
      = if k = "away_ac_interval".toList then atoi v else c.away_ac_interval := by
  by_cases h : k = "away_ac_interval".toList
  · subst h
    rw [applyKV_away_ac, if_pos rfl]
  · rw [if_neg h]
    unfold applyKV
    split_ifs <;> rfl

theorem applyKV_abat_proj (c : Config) (k v : List Char) :
    (applyKV c k v).away_battery_interval
      = if k = "away_battery_interval".toList then atoi v else c.away_battery_interval := by
  by_cases h : k = "away_battery_interval".toList
  · subst h
    rw [applyKV_away_battery, if_pos rfl]
  · rw [if_neg h]
    unfold applyKV
    split_ifs <;> rfl

theorem applyKV_maxf_proj (c : Config) (k v : List Char) :
    (applyKV c k v).max_failed_attempts
      = if k = "max_failed_attempts".toList then atoi v else c.max_failed_attempts := by
  by_cases h : k = "max_failed_attempts".toList
  · subst h
    rw [applyKV_max_failed, if_pos rfl]
  · rw [if_neg h]
    unfold applyKV
    split_ifs <;> rfl

theorem applyKV_minb_proj (c : Config) (k v : List Char) :
    (applyKV c k v).min_battery_level
      = if k = "min_battery_level".toList then atoi v else c.min_battery_level := by
  by_cases h : k = "min_battery_level".toList
  · subst h
    rw [applyKV_min_battery, if_pos rfl]
  · rw [if_neg h]
    unfold applyKV
    split_ifs <;> rfl

theorem applyKV_en_proj (c : Config) (k v : List Char) :
    (applyKV c k v).enable_notifications
      = if k = "enable_notifications".toList then decide (v = "true".toList)
        else c.enable_notifications := by
  by_cases h : k = "enable_notifications".toList
  · subst h
    rw [applyKV_enable_notifications, if_pos rfl]
  · rw [if_neg h]
    unfold applyKV
    split_ifs <;> rfl

/-- Claim C6: a line containing `'='` is split at its first `'='`; key
and value are trimmed of leading spaces and tabs; recognized keys assign
the (coerced) value to their field and nothing else, independently of
the current section, which is left unchanged; unrecognized keys change
nothing; and assignments through two distinct keys commute, so keys may
appear in any order. -/
theorem C6_keyvalue :
    (∀ (k v : List Char), '=' ∉ k → splitAtEq (k ++ '=' :: v) = some (k, v)) ∧
    (∀ (st : LoadState) (v : List Char),
      processLine st ( "home_networks=".toList ++ v )
        = { st with config :=
            { st.config with home_networks := (trimLeadingWS v).take 1023 } }) ∧
    (∀ (st : LoadState) (v : List Char),
      processLine st ( "home_ac_interval=".toList ++ v )
        = { st with config :=
            { st.config with home_ac_interval := atoi (trimLeadingWS v) } }) ∧
    (∀ (st : LoadState) (v : List Char),
      processLine st ( "enable_notifications=".toList ++ v )
        = { st with config :=
            { st.config with
              enable_notifications := decide (trimLeadingWS v = "true".toList) } }) ∧
    (∀ (st : LoadState) (k v : List Char), '=' ∉ k →
      (k ++ '=' :: v).head? ≠ some '#' →
      ¬((k ++ '=' :: v).head? = some '[' ∧ (k ++ '=' :: v).getLast? = some ']') →
      trimLeadingWS k ∉ [ "home_networks".toList, "home_ac_interval".toList,
        "home_battery_interval".toList, "away_ac_interval".toList,
        "away_battery_interval".toList, "max_failed_attempts".toList,
        "min_battery_level".toList, "enable_notifications".toList ] →
      processLine st (k ++ '=' :: v) = st) ∧
    (∀ (c : Config) (k1 v1 k2 v2 : List Char), k1 ≠ k2 →
      applyKV (applyKV c k1 v1) k2 v2 = applyKV (applyKV c k2 v2) k1 v1) := by
  refine ⟨fun k v h => splitAtEq_of_no_eq v h, pl_home_networks_line, pl_home_ac_line,
    pl_enable_line, ?_, ?_⟩
  · intro st k v hk hhash hbra hkeys
    have hws : wsOnly (k ++ '=' :: v) = false :=
      wsOnly_false_of_mem (List.mem_append_right k (List.mem_cons_self '=' v)) (by decide)
    have hskip : ¬((k ++ '=' :: v).head? = some '#' ∨ wsOnly (k ++ '=' :: v) = true) := by
      rintro (h | h)
      · exact hhash h
      · rw [hws] at h
        exact Bool.false_ne_true h
    rw [pl_kv st hskip hbra (splitAtEq_of_no_eq v hk)]
    simp only [List.mem_cons, List.not_mem_nil, or_false, not_or] at hkeys
    obtain ⟨n1, n2, n3, n4, n5, n6, n7, n8⟩ := hkeys
    rw [applyKV_unrecognized st.config _ n1 n2 n3 n4 n5 n6 n7 n8]
  · intro c k1 v1 k2 v2 hne
    refine configExt ?_ ?_ ?_ ?_ ?_ ?_ ?_ ?_ ?_
    · rw [applyKV_hn_proj, applyKV_hn_proj, applyKV_hn_proj, applyKV_hn_proj]
      exact ite_ite_comm _ _ _ _ (Ne.symm hne)
    · rw [applyKV_nas_devices, applyKV_nas_devices, applyKV_nas_devices,
        applyKV_nas_devices]
    · rw [applyKV_hac_proj, applyKV_hac_proj, applyKV_hac_proj, applyKV_hac_proj]
      exact ite_ite_comm _ _ _ _ (Ne.symm hne)
    · rw [applyKV_hbat_proj, applyKV_hbat_proj, applyKV_hbat_proj, applyKV_hbat_proj]
      exact ite_ite_comm _ _ _ _ (Ne.symm hne)
    · rw [applyKV_aac_proj, applyKV_aac_proj, applyKV_aac_proj, applyKV_aac_proj]
      exact ite_ite_comm _ _ _ _ (Ne.symm hne)
    · rw [applyKV_abat_proj, applyKV_abat_proj, applyKV_abat_proj, applyKV_abat_proj]
      exact ite_ite_comm _ _ _ _ (Ne.symm hne)
    · rw [applyKV_maxf_proj, applyKV_maxf_proj, applyKV_maxf_proj, applyKV_maxf_proj]
      exact ite_ite_comm _ _ _ _ (Ne.symm hne)
    · rw [applyKV_minb_proj, applyKV_minb_proj, applyKV_minb_proj, applyKV_minb_proj]
      exact ite_ite_comm _ _ _ _ (Ne.symm hne)
    · rw [applyKV_en_proj, applyKV_en_proj, applyKV_en_proj, applyKV_en_proj]
      exact ite_ite_comm _ _ _ _ (Ne.symm hne)

/-- Witness for C6: the split, an unrecognized key, and commutation of
two distinct keys on concrete inputs. -/
theorem C6_keyvalue_witness :
    splitAtEq ( "home_ac_interval".toList ++ '=' :: "20".toList )
      = some ( "home_ac_interval".toList, "20".toList ) ∧
    processLine ⟨[], set_defaults⟩ ( "unknown_key".toList ++ '=' :: "zz".toList )
      = ⟨[], set_defaults⟩ ∧
    applyKV (applyKV set_defaults ( "home_ac_interval".toList ) ( "20".toList ))
        ( "min_battery_level".toList ) ( "5".toList )
      = applyKV (applyKV set_defaults ( "min_battery_level".toList ) ( "5".toList ))
        ( "home_ac_interval".toList ) ( "20".toList ) :=
  ⟨C6_keyvalue.1 _ _ (by decide),
   C6_keyvalue.2.2.2.2.1 _ _ _ (by decide) (by decide) (by decide) (by decide),
   C6_keyvalue.2.2.2.2.2 _ _ _ _ _ (by decide)⟩

/-! ### Claims C7, C8, C9, C10 -/

theorem devicesInvariant_of_nas {c1 c2 : Config} (h : c1.nas_devices = c2.nas_devices)
    (hinv : devicesInvariant c1) : devicesInvariant c2 := by
  unfold devicesInvariant at hinv ⊢
  rw [← h]
  exact hinv

theorem length_takeWhile_le_local (p : Char → Bool) : ∀ l : List Char,
    (l.takeWhile p).length ≤ l.length := by
  intro l
  induction l with
  | nil => exact Nat.le_refl 0
  | cons c cs ih =>
    rw [List.takeWhile_cons]
    split_ifs
    · simpa using ih
    · simp

theorem loadStep_preserves (st : LoadState) (chunk : List Char)
    (hinv : devicesInvariant st.config) (hlen : chunk.length ≤ 1023) :
    devicesInvariant (loadStep st chunk).config := by
  have hstep : loadStep st chunk
      = processLine st (chunk.takeWhile (fun c => c != '\n')) := rfl
  set line := chunk.takeWhile (fun c => c != '\n') with hline
  have hlinelen : line.length ≤ 1023 := le_trans (length_takeWhile_le_local _ chunk) hlen
  rw [hstep]
  by_cases hskip : line.head? = some '#' ∨ wsOnly line = true
  · rw [pl_skip _ _ hskip]
    exact hinv
  · by_cases hsec : line.head? = some '[' ∧ line.getLast? = some ']'
    · rw [pl_sectionSet _ _ hskip hsec]
      exact hinv
    · cases hsplit : splitAtEq line with
      | some kv =>
        obtain ⟨k, v⟩ := kv
        rw [pl_kv st hskip hsec hsplit]
        exact devicesInvariant_of_nas (applyKV_nas_devices _ _ _).symm hinv
      | none =>
        rw [pl_bare st hskip hsec hsplit]
        unfold devicesInvariant at hinv ⊢
        obtain ⟨hl10, hall⟩ := hinv
        split_ifs with hg
        · obtain ⟨-, hslash, hlt⟩ := hg
          refine ⟨by simp only [List.length_append, List.length_singleton]; omega, ?_⟩
          intro x hx
          rcases List.mem_append.1 hx with hx | hx
          · exact hall x hx
          · rw [List.mem_singleton] at hx
            subst hx
            rw [List.take_of_length_le hlinelen]
            refine ⟨?_, hslash⟩
            intro hnil
            rw [hnil] at hslash
            exact absurd hslash (by decide)
        · exact ⟨hl10, hall⟩

theorem loadLines_invariant : ∀ (ls : List (List Char)),
    (∀ l ∈ ls, l.length ≤ 1023) →
    ∀ st : LoadState, devicesInvariant st.config →
      devicesInvariant ((ls.foldl loadStep st).config) := by
  intro ls
  induction ls with
  | nil =>
    intro hls st h
    exact h
  | cons l ls ih =>
    intro hls st h
    rw [List.foldl_cons]
    exact ih (fun x hx => hls x (List.mem_cons_of_mem l hx)) _
      (loadStep_preserves st l h (hls l (List.mem_cons_self l ls)))

/-- Claim C7 (amended): append, remove and load all preserve the device
invariant (at most 10 entries, each non-empty and containing `'/'`),
with the buffer provisos the code imposes: the appended text fits the
1023-character entry buffer, and every `fgets` chunk of the loaded file
is at most 1023 characters (which `fgets` guarantees); and during load a
bare line (no `'='`) is appended exactly when the section is
`nas_devices`, the line contains `'/'`, and the count is below 10 —
otherwise it is dropped with no state change. -/
theorem C7_invariant :
    (∀ (c : Config) (d : List Char), devicesInvariant c → d.length ≤ 1023 →
      devicesInvariant (addDevice c d)) ∧
    (∀ (c : Config) (i : Nat), devicesInvariant c → devicesInvariant (removeDevice c i)) ∧
    (∀ ls : List (List Char), (∀ l ∈ ls, l.length ≤ 1023) →
      devicesInvariant (loadLines ls).config) ∧
    (∀ (st : LoadState) (line : List Char),
      line.head? ≠ some '#' → wsOnly line = false →
      ¬(line.head? = some '[' ∧ line.getLast? = some ']') →
      splitAtEq line = none →
      processLine st line
        = if st.sectionName = "nas_devices".toList ∧ '/' ∈ line ∧
              st.config.nas_devices.length < 10 then
            { st with config :=
                { st.config with
                  nas_devices := st.config.nas_devices ++ [ line.take 1023 ] } }
          else st) := by
  refine ⟨?_, ?_, ?_, ?_⟩
  · intro c d hinv hdlen
    unfold addDevice
    unfold devicesInvariant at hinv ⊢
    obtain ⟨hl10, hall⟩ := hinv
    split_ifs with hg
    · obtain ⟨hpos, hslash, hlt⟩ := hg
      rw [List.take_of_length_le hdlen]
      refine ⟨by simp only [List.length_append, List.length_singleton]; omega, ?_⟩
      intro x hx
      rcases List.mem_append.1 hx with hx | hx
      · exact hall x hx
      · rw [List.mem_singleton] at hx
        subst hx
        refine ⟨?_, hslash⟩
        intro hnil
        rw [hnil] at hpos
        simp at hpos
    · exact ⟨hl10, hall⟩
  · intro c i hinv
    unfold removeDevice
    unfold devicesInvariant at hinv ⊢
    obtain ⟨hl10, hall⟩ := hinv
    refine ⟨?_, ?_⟩
    · simp only [List.length_take, List.length_append, List.length_drop]
      omega
    · intro x hx
      have h1 := List.take_subset _ _ hx
      rcases List.mem_append.1 h1 with h2 | h2
      · exact hall x (List.take_subset _ _ h2)
      · exact hall x (List.drop_subset _ _ h2)
  · intro ls hls
    exact loadLines_invariant ls hls ⟨[], set_defaults⟩ (by decide)
  · intro st line h1 h2 h3 h4
    refine pl_bare st ?_ h3 h4
    rintro (h | h)
    · exact h1 h
    · rw [h2] at h
      exact Bool.false_ne_true h

/-- Witness for C7: the invariant holds after a concrete append, a
concrete remove, and a concrete load, and a bare line outside the
`nas_devices` section is dropped. -/
theorem C7_invariant_witness :
    devicesInvariant (addDevice set_defaults ( "host2/share".toList )) ∧
    devicesInvariant
      (removeDevice { set_defaults with nas_devices := [ "a/b".toList ] } 0) ∧
    devicesInvariant (loadLines [ "[nas_devices]".toList, "nas1.local/media".toList ]).config ∧
    processLine ⟨ "networks".toList, set_defaults⟩ ( "bare/line".toList )
      = ⟨ "networks".toList, set_defaults⟩ := by
  refine ⟨C7_invariant.1 _ _ (by decide) (by decide),
    C7_invariant.2.1 _ _ (by decide),
    C7_invariant.2.2.1 _ (by decide), ?_⟩
  rw [C7_invariant.2.2.2 ⟨ "networks".toList, set_defaults⟩ ( "bare/line".toList )
    (by decide) (by decide) (by decide) (by decide)]
  decide

set_option maxRecDepth 100000 in
/-- Counterexample to C7 as stated: a 1024-character device text whose
only `'/'` is its last character passes the validation of the add handler
(`strstr` sees the `'/'`), but `strncpy` stores only the first 1023
characters, so the stored entry contains no separator and the stated
invariant is violated. -/
theorem C7_invariant_counterexample :
    devicesInvariant set_defaults ∧
    ¬ devicesInvariant (addDevice set_defaults (List.replicate 1023 'a' ++ [ '/' ])) := by
  constructor
  · decide
  · decide

/-- Claim C8: removing an in-range index deletes that entry, shifts every
later entry down one position preserving order and content, decrements
the count, and leaves every other field unchanged. -/
theorem C8_remove (c : Config) (i : Nat) (h : i < c.nas_devices.length) :
    removeDevice c i
      = { c with nas_devices := c.nas_devices.take i ++ c.nas_devices.drop (i + 1) } ∧
    (removeDevice c i).nas_devices.length = c.nas_devices.length - 1 ∧
    (∀ j, j < i → (removeDevice c i).nas_devices[j]? = c.nas_devices[j]?) ∧
    (∀ j, i ≤ j → (removeDevice c i).nas_devices[j]? = c.nas_devices[j + 1]?) ∧
    (removeDevice c i).home_networks = c.home_networks ∧
    (removeDevice c i).home_ac_interval = c.home_ac_interval ∧
    (removeDevice c i).home_battery_interval = c.home_battery_interval ∧
    (removeDevice c i).away_ac_interval = c.away_ac_interval ∧
    (removeDevice c i).away_battery_interval = c.away_battery_interval ∧
    (removeDevice c i).max_failed_attempts = c.max_failed_attempts ∧
    (removeDevice c i).min_battery_level = c.min_battery_level ∧
    (removeDevice c i).enable_notifications = c.enable_notifications := by
  have hmain : removeDevice c i
      = { c with nas_devices := c.nas_devices.take i ++ c.nas_devices.drop (i + 1) } := by
    unfold removeDevice
    rw [List.take_of_length_le (by
      simp only [List.length_append, List.length_take, List.length_drop]
      omega)]
  refine ⟨hmain, ?_, ?_, ?_, ?_, ?_, ?_, ?_, ?_, ?_, ?_, ?_⟩
  · rw [hmain]
    simp only [List.length_append, List.length_take, List.length_drop]
    omega
  · intro j hj
    rw [hmain]
    show (c.nas_devices.take i ++ c.nas_devices.drop (i + 1))[j]? = c.nas_devices[j]?
    rw [List.getElem?_append, if_pos (by simp only [List.length_take]; omega)]
    rw [List.getElem?_take, if_pos hj]
  · intro j hj
    rw [hmain]
    show (c.nas_devices.take i ++ c.nas_devices.drop (i + 1))[j]? = c.nas_devices[j + 1]?
    rw [List.getElem?_append, if_neg (by simp only [List.length_take]; omega)]
    rw [List.getElem?_drop]
    congr 1
    simp only [List.length_take]
    omega
  · rw [hmain]
  · rw [hmain]
  · rw [hmain]
  · rw [hmain]
  · rw [hmain]
  · rw [hmain]
  · rw [hmain]
  · rw [hmain]

/-- Witness for C8: removing index 1 from a three-entry list. -/
theorem C8_remove_witness :
    removeDevice
        { set_defaults with
          nas_devices := [ "a/b".toList, "c/d".toList, "e/f".toList ] } 1
      = { set_defaults with nas_devices := [ "a/b".toList, "e/f".toList ] } := by
  rw [(C8_remove
    { set_defaults with nas_devices := [ "a/b".toList, "c/d".toList, "e/f".toList ] } 1
    (by decide)).1]
  decide

/-- Claim C9: key/value assignments are applied in file order, so after a
load the field holds the value from the last occurrence of its key: any
lines may precede the occurrence, and any lines that do not assign the
field may follow it. -/
theorem C9_last_wins (pre post : List (List Char)) (v : List Char)
    (hnl : '\n' ∉ v)
    (hpost : ∀ l ∈ post, ∀ st : LoadState,
      (loadStep st l).config.home_ac_interval = st.config.home_ac_interval) :
    (loadLines (pre ++ ( "home_ac_interval=".toList ++ v ) :: post)).config.home_ac_interval
      = atoi (trimLeadingWS v) := by
  have haux : ∀ (ls : List (List Char)),
      (∀ l ∈ ls, ∀ st : LoadState,
        (loadStep st l).config.home_ac_interval = st.config.home_ac_interval) →
      ∀ st : LoadState, (ls.foldl loadStep st).config.home_ac_interval
        = st.config.home_ac_interval := by
    intro ls
    induction ls with
    | nil =>
      intro hl st
      rfl
    | cons l ls ih =>
      intro hl st
      rw [List.foldl_cons, ih (fun x hx => hl x (List.mem_cons_of_mem l hx)),
        hl l (List.mem_cons_self l ls)]
  have hline : ( "home_ac_interval=".toList ++ v ).takeWhile (fun c => c != '\n')
      = "home_ac_interval=".toList ++ v := by
    apply takeWhile_ne_newline
    intro hmem
    rcases List.mem_append.1 hmem with hm | hm
    · exact absurd hm (by decide)
    · exact hnl hm
  unfold loadLines
  rw [List.foldl_append, List.foldl_cons, haux post hpost]
  rw [show ∀ st : LoadState, loadStep st ( "home_ac_interval=".toList ++ v )
      = processLine st ( "home_ac_interval=".toList ++ v ) from fun st => by
    unfold loadStep
    rw [hline]]
  rw [pl_home_ac_line]

/-- Witness for C9: with two `home_ac_interval` lines, the later one
wins, and a following line for another key does not disturb it. -/
theorem C9_last_wins_witness :
    (loadLines [ "home_ac_interval=5".toList,
      "home_ac_interval=".toList ++ "42".toList,
      "min_battery_level=9".toList ]).config.home_ac_interval = 42 := by
  have hstep : ∀ st : LoadState, loadStep st ( "min_battery_level=9".toList )
      = processLine st ( "min_battery_level=9".toList ) := by
    intro st
    unfold loadStep
    rw [show ( "min_battery_level=9".toList ).takeWhile (fun c => c != '\n')
      = "min_battery_level=9".toList from by decide]
  have hpost : ∀ l ∈ [ "min_battery_level=9".toList ], ∀ st : LoadState,
      (loadStep st l).config.home_ac_interval = st.config.home_ac_interval := by
    intro l hl st
    rw [List.mem_singleton] at hl
    subst hl
    rw [hstep st,
      show ( "min_battery_level=9".toList ) = ( "min_battery_level=".toList ++ "9".toList )
        from rfl,
      pl_min_battery_line]
  rw [show ([ "home_ac_interval=5".toList,
      "home_ac_interval=".toList ++ "42".toList,
      "min_battery_level=9".toList ] : List (List Char))
    = [ "home_ac_interval=5".toList ] ++ ( "home_ac_interval=".toList ++ "42".toList )
      :: [ "min_battery_level=9".toList ] from rfl]
  rw [C9_last_wins [ "home_ac_interval=5".toList ] [ "min_battery_level=9".toList ]
    ( "42".toList ) (by decide) hpost]
  decide

/-- Claim C10: only leading spaces and tabs are trimmed from parsed
values, never trailing ones: `enable_notifications=true ` (trailing
space) yields `false` because the value is compared as the exact token;
trailing whitespace after a `home_networks` value that starts with a
non-blank character is stored verbatim; and a device-entry line with
trailing whitespace is appended verbatim. -/
theorem C10_trailing :
    (∀ st : LoadState, processLine st ( "enable_notifications=true ".toList )
      = { st with config := { st.config with enable_notifications := false } }) ∧
    (∀ (st : LoadState) (v : List Char) (c0 : Char), v.head? = some c0 →
      (c0 == ' ' || c0 == '\t') = false → (v ++ [ ' ' ]).length ≤ 1023 →
      processLine st ( "home_networks=".toList ++ (v ++ [ ' ' ]))
        = { st with config := { st.config with home_networks := v ++ [ ' ' ] } }) ∧
    (∀ st : LoadState, st.sectionName = "nas_devices".toList →
      st.config.nas_devices.length < 10 →
      processLine st ( "a/b ".toList )
        = { st with config :=
            { st.config with
              nas_devices := st.config.nas_devices ++ [ "a/b ".toList ] } }) := by
  refine ⟨?_, ?_, ?_⟩
  · intro st
    rw [show ( "enable_notifications=true ".toList )
        = ( "enable_notifications=".toList ++ "true ".toList ) from rfl,
      pl_enable_line,
      show (decide (trimLeadingWS ( "true ".toList ) = "true".toList)) = false
        from by decide]
  · intro st v c0 hhead hc0 hlen
    obtain ⟨t, rfl⟩ : ∃ t, v = c0 :: t := by
      cases v with
      | nil => simp at hhead
      | cons a t =>
        rw [List.head?_cons] at hhead
        exact ⟨t, by rw [Option.some.inj hhead]⟩
    rw [pl_home_networks_line,
      show ((c0 :: t) ++ [ ' ' ]) = (c0 :: (t ++ [ ' ' ])) from rfl,
      trimLeadingWS_cons_of _ hc0]
    rw [show (c0 :: (t ++ [ ' ' ])) = ((c0 :: t) ++ [ ' ' ]) from rfl,
      List.take_of_length_le hlen]
  · intro st hsec hlt
    rw [pl_bare st (not_skip_of_head ( "a/b ".toList ) 'a' rfl (by decide) (by decide))
      (not_header_of_head ( "a/b ".toList ) 'a' rfl (by decide))
      (splitAtEq_none (by decide)),
      if_pos ⟨hsec, by decide, hlt⟩,
      show ( "a/b ".toList ).take 1023 = "a/b ".toList from by decide]

/-- Witness for C10: the trailing-space cases on concrete inputs. -/
theorem C10_trailing_witness :
    processLine ⟨[], set_defaults⟩ ( "home_networks=".toList ++ ( "ab".toList ++ [ ' ' ]))
      = ⟨[], { set_defaults with home_networks := "ab".toList ++ [ ' ' ] }⟩ ∧
    processLine ⟨ "nas_devices".toList, set_defaults⟩ ( "a/b ".toList )
      = ⟨ "nas_devices".toList, { set_defaults with nas_devices := [ "a/b ".toList ] }⟩ := by
  constructor
  · rw [C10_trailing.2.1 ⟨[], set_defaults⟩ ( "ab".toList ) 'a' rfl (by decide) (by decide)]
  · rw [C10_trailing.2.2 ⟨ "nas_devices".toList, set_defaults⟩ rfl (by decide)]
    decide

example : atoi ( "15".toList ) = 15 := by decide
example : atoi ( "abc".toList ) = 0 := by decide
example : atoi ( "-42".toList ) = -42 := by decide
example : itoa 180 = "180".toList := by decide
example : itoa (-7) = "-7".toList := by decide
example : chunks ( "ab\n\ncd\n".toList ) = [ "ab\n".toList, "\n".toList, "cd\n".toList ] := by decide
example :
    (loadLines [ "[nas_devices]".toList, "nas1.local/media".toList ]).config.nas_devices
      = [ "nas1.local/media".toList ] := by decide
example : load_config none = (false, set_defaults) := by decide

end NasMonitor
